import Mathlib

/-!
Verification of the legal-situation analysis pipeline of
`src/main.py` (class `LegalSituationAnalyzer`).

The Python source is shallowly embedded: texts are Lean `String`s
(manipulated through their `List Char` contents), Python's `str.lower`
is per-character ASCII case mapping (the keywords involved are ASCII or
Devanagari, on which both agree), Python's substring operator `in` is
`containsSub`, the two regex `findall` calls are modelled by explicit
left-to-right, non-overlapping scanners faithful to the patterns, and
the `try/except`-wrapped external-service calls take the service's
response as an `Option` argument (`none` = the call raised, `some` =
the value the service returned).
-/

namespace LegalAnalyzer

/-! ### Character and string primitives -/

/-- Python's `\d` for the inputs of interest (ASCII digits). -/
def isDigitChar (c : Char) : Bool := '0' ≤ c && c ≤ '9'

/-- The two separator characters accepted by the date pattern (dash or slash). -/
def isSepChar (c : Char) : Bool := c = '-' || c = '/'

/-- Python's regex word character (`\w`): letters, digits, underscore. -/
def isWordChar (c : Char) : Bool := c.isAlphanum || c = '_'

/-- Python's `\s` (ASCII whitespace). -/
def isSpaceChar (c : Char) : Bool :=
  c = ' ' || c = '\t' || c = '\n' || c = '\r' || c = '\x0b' || c = '\x0c'

/-- Python's `str.lower`, per character (ASCII case mapping; identity on
the Devanagari keywords, as in Python). -/
def lowerChars (s : List Char) : List Char := s.map Char.toLower

/-- Python's substring operator `pat in s` (contiguous occurrence). -/
def containsSub (pat : List Char) : List Char → Bool
  | [] => pat.isEmpty
  | c :: tl => pat.isPrefixOf (c :: tl) || containsSub pat tl

/-- Number of start positions at which `pat` occurs in `s` (used only to
state occurrence-counting properties; Python's `in` does not count). -/
def countOcc (pat : List Char) : List Char → Nat
  | [] => 0
  | c :: tl => (if pat.isPrefixOf (c :: tl) then 1 else 0) + countOcc pat tl

/-! ### `assess_urgency` (src/main.py lines 265-283) -/

/-- The fixed urgent-keyword list of `assess_urgency`. -/
def urgent_keywords : List String :=
  ["emergency", "urgent", "immediate", "threat", "violence", "harassment", "eviction"]

/-- `assess_urgency(self, text, category)`: one point per urgent keyword
present in the lower-cased text (the `for` loop tests `keyword in
text_lower` once per keyword), plus 2 if the category is `criminal`;
thresholds 3 and 1 pick the tier. -/
def assess_urgency (text category : String) : String :=
  let text_lower := lowerChars text.data
  let base : Nat := urgent_keywords.foldl
    (fun acc kw => if containsSub kw.data text_lower then acc + 1 else acc) 0
  let score := if category = "criminal" then base + 2 else base
  if 3 ≤ score then "HIGH" else if 1 ≤ score then "MEDIUM" else "LOW"

/-- Spec-side hit count: how many of the urgent keywords occur (at least
once) in the lower-cased text. -/
def keywordHitCount (text : String) : Nat :=
  urgent_keywords.countP (fun kw => containsSub kw.data (lowerChars text.data))

/-- Spec-side thresholds: score ≥ 3 is HIGH, score ≥ 1 is MEDIUM, else LOW. -/
def tierOfScore (score : Nat) : String :=
  if 3 ≤ score then "HIGH" else if 1 ≤ score then "MEDIUM" else "LOW"

/-- Numeric order of the tiers, LOW < MEDIUM < HIGH. -/
def tierValue : String → Nat
  | "MEDIUM" => 1
  | "HIGH" => 2
  | _ => 0

lemma foldl_count_eq_countP (p : String → Bool) (l : List String) (a : Nat) :
    l.foldl (fun acc kw => if p kw then acc + 1 else acc) a = a + l.countP p := by
  induction l generalizing a with
  | nil => simp
  | cons x tl ih =>
    simp only [List.foldl_cons, List.countP_cons, ih]
    by_cases h : p x
    · simp [h]; omega
    · simp [h]

/-- The urgency score is the number of urgent keywords present (each counted
at most once), plus the categorical bonus, pushed through the thresholds. -/
lemma assess_urgency_eq (text category : String) :
    assess_urgency text category =
      tierOfScore (keywordHitCount text + if category = "criminal" then 2 else 0) := by
  simp only [assess_urgency, keywordHitCount, tierOfScore, foldl_count_eq_countP,
    Nat.zero_add]
  by_cases h : category = "criminal" <;> simp [h]

lemma tierValue_tierOfScore_mono {a b : Nat} (h : a ≤ b) :
    tierValue (tierOfScore a) ≤ tierValue (tierOfScore b) := by
  unfold tierOfScore
  split_ifs <;> first | decide | omega

/-- C1 (amended): `assess_urgency` scores one point per urgent keyword that
occurs in the lower-cased text — each keyword counted at most once, not once
per occurrence — plus 2 when the category is `criminal`, and returns HIGH at
score ≥ 3, MEDIUM at score ≥ 1, LOW otherwise; a text containing three
distinct urgent keywords with a non-criminal category yields HIGH. -/
theorem assess_urgency_keyword_presence_scoring :
    (∀ text category, assess_urgency text category =
      tierOfScore (keywordHitCount text + if category = "criminal" then 2 else 0)) ∧
    assess_urgency "emergency urgent threat" "civil" = "HIGH" :=
  ⟨fun text category => assess_urgency_eq text category, by decide⟩

/-- C1 counterexample: the text "urgent urgent urgent" contains three
occurrences of the urgent keyword "urgent", the category "civil" is not
criminal, yet `assess_urgency` returns MEDIUM, not HIGH as the claim's
occurrence-counting algorithm would require. -/
theorem assess_urgency_occurrences_counterexample :
    countOcc "urgent".data (lowerChars "urgent urgent urgent".data) = 3 ∧
    ("civil" : String) ≠ "criminal" ∧
    assess_urgency "urgent urgent urgent" "civil" = "MEDIUM" ∧
    ("MEDIUM" : String) ≠ "HIGH" := by
  refine ⟨by decide, by decide, by decide, by decide⟩

/-- C8: for every text, the urgency tier for category "criminal" is at least
the tier for category "civil" in the order LOW < MEDIUM < HIGH. -/
theorem assess_urgency_criminal_ge_civil :
    ∀ text, tierValue (assess_urgency text "civil") ≤
      tierValue (assess_urgency text "criminal") := by
  intro text
  rw [assess_urgency_eq, assess_urgency_eq]
  simp only [if_pos rfl, if_neg (by decide : ¬("civil" : String) = "criminal"),
    Nat.add_zero]
  exact tierValue_tierOfScore_mono (by omega)

/-- C9: with category "criminal" the categorical bonus of 2 alone reaches the
MEDIUM threshold, so `assess_urgency` never returns LOW. -/
theorem assess_urgency_criminal_never_low :
    ∀ text, assess_urgency text "criminal" = "MEDIUM" ∨
      assess_urgency text "criminal" = "HIGH" := by
  intro text
  rw [assess_urgency_eq]
  have hb : (if ("criminal" : String) = "criminal" then 2 else 0) = 2 := if_pos rfl
  rw [hb]
  unfold tierOfScore
  split_ifs with h1 h2
  · right; rfl
  · left; rfl
  · exfalso; omega

/-! ### `categorize_legal_issue` and `analyze_sentiment` (src/main.py lines 128-151)

The zero-shot classifier and the sentiment model are external services.
Their `try/except`-wrapped calls are modelled by passing the service's
response as an `Option` argument: `none` means the call raised, `some`
carries whatever shape the service produced (any labels, any scores,
including scores outside `[0,1]`).  Indexing `result['labels'][0]` /
`result['scores'][0]` / `result[0]` raises on an empty list, which the
same `except` catches, so an empty response also yields the default. -/

/-- The `legal_categories` dict of `LegalSituationAnalyzer.__init__`. -/
def legal_categories : List (String × List String) :=
  [("family", ["divorce", "custody", "marriage", "property", "inheritance"]),
   ("criminal", ["theft", "assault", "fraud", "harassment", "violence"]),
   ("civil", ["contract", "debt", "defamation", "negligence", "breach"]),
   ("property", ["rent", "eviction", "ownership", "dispute", "registration"]),
   ("employment", ["salary", "termination", "harassment", "rights", "compensation"]),
   ("consumer", ["refund", "warranty", "service", "product", "complaint"])]

/-- `self.legal_categories.get(key, [])`. -/
def legalCategoriesGet (key : String) : List String :=
  ((legal_categories.find? (fun p => p.1 == key)).map Prod.snd).getD []

/-- Shape of the zero-shot classifier's response (ranked labels/scores). -/
structure ClassifierResponse where
  labels : List String
  scores : List Rat

structure CategoryResult where
  category : String
  confidence : Rat
  subcategories : List String
deriving DecidableEq

structure SentimentResult where
  label : String
  score : Rat
deriving DecidableEq

/-- `categorize_legal_issue(self, text)`: reads `labels[0]` and `scores[0]`
of the classifier response verbatim; any raised error (including an empty
or unparseable response) falls back to
`{category: "general", confidence: 0.5, subcategories: []}`. -/
def categorize_legal_issue (response : Option ClassifierResponse) : CategoryResult :=
  match response with
  | some r =>
    match r.labels, r.scores with
    | lab :: _, sc :: _ =>
      { category := lab, confidence := sc, subcategories := legalCategoriesGet lab }
    | _, _ => { category := "general", confidence := 1/2, subcategories := [] }
  | none => { category := "general", confidence := 1/2, subcategories := [] }

/-- `analyze_sentiment(self, text)`: returns `result[0]` of the sentiment
service verbatim; on any raised error, `{label: "NEUTRAL", score: 0.5}`. -/
def analyze_sentiment (response : Option SentimentResult) : SentimentResult :=
  match response with
  | some r => r
  | none => { label := "NEUTRAL", score := 1/2 }

/-- All scores carried by a classifier response (`[]` for a raised call). -/
def classifierScores : Option ClassifierResponse → List Rat
  | some r => r.scores
  | none => []

/-- The score carried by a sentiment response (`[]` for a raised call). -/
def sentimentScores : Option SentimentResult → List Rat
  | some r => [r.score]
  | none => []

/-- The top label/score pair the code reads, when the response has one. -/
def topPair : Option ClassifierResponse → Option (String × Rat)
  | some r =>
    match r.labels, r.scores with
    | lab :: _, sc :: _ => some (lab, sc)
    | _, _ => none
  | none => none

/-- The seven enumerated category values of the spec's data model. -/
def sevenCategories : List String :=
  ["family", "criminal", "civil", "property", "employment", "consumer", "general"]

/-! ### `generate_legal_advice` (src/main.py lines 153-263) -/

/-- The `extracted_info` dict built by `extract_key_info`. -/
structure ExtractedInfo where
  parties_involved : List String
  legal_keywords : List String
  dates : List String
  amounts : List String
  locations : List String
deriving DecidableEq

structure AdviceTemplate where
  steps : List String
  laws : List String
deriving DecidableEq

def familyTemplate : AdviceTemplate :=
  { steps :=
      ["Document all relevant communications and agreements",
       "Consult with a family law specialist",
       "Consider mediation before litigation",
       "Gather all financial documents",
       "Understand your rights under family laws"],
    laws :=
      ["Hindu Marriage Act, 1955",
       "Indian Succession Act, 1925",
       "Protection of Women from Domestic Violence Act, 2005",
       "Guardians and Wards Act, 1890"] }

def criminalTemplate : AdviceTemplate :=
  { steps :=
      ["File an FIR at the nearest police station immediately",
       "Preserve all evidence related to the incident",
       "Consult with a criminal lawyer",
       "Cooperate with police investigation",
       "Keep records of all proceedings"],
    laws :=
      ["Indian Penal Code, 1860",
       "Code of Criminal Procedure, 1973",
       "Indian Evidence Act, 1872",
       "Protection of Women from Sexual Harassment Act, 2013"] }

def civilTemplate : AdviceTemplate :=
  { steps :=
      ["Send a legal notice to the other party",
       "Gather all relevant documents and evidence",
       "Attempt alternative dispute resolution",
       "File a civil suit if necessary",
       "Maintain detailed records"],
    laws :=
      ["Code of Civil Procedure, 1908",
       "Indian Contract Act, 1872",
       "Specific Relief Act, 1963",
       "Limitation Act, 1963"] }

def propertyTemplate : AdviceTemplate :=
  { steps :=
      ["Verify property documents and titles",
       "Check for any encumbrances or disputes",
       "Consult with a property lawyer",
       "Register the property properly",
       "Maintain all transaction records"],
    laws :=
      ["Transfer of Property Act, 1882",
       "Registration Act, 1908",
       "Indian Stamp Act, 1899",
       "Real Estate Regulation Act, 2016"] }

def employmentTemplate : AdviceTemplate :=
  { steps :=
      ["Review your employment contract",
       "Document workplace incidents",
       "File complaints with appropriate authorities",
       "Seek legal consultation",
       "Understand your labor rights"],
    laws :=
      ["Industrial Disputes Act, 1947",
       "Minimum Wages Act, 1948",
       "Employees' Provident Fund Act, 1952",
       "Sexual Harassment of Women at Workplace Act, 2013"] }

def consumerTemplate : AdviceTemplate :=
  { steps :=
      ["File a complaint with consumer forum",
       "Gather purchase receipts and warranties",
       "Document all communications with seller",
       "Seek compensation for damages",
       "Know your consumer rights"],
    laws :=
      ["Consumer Protection Act, 2019",
       "Indian Contract Act, 1872",
       "Sale of Goods Act, 1930",
       "Competition Act, 2002"] }

/-- `advice_templates.get(category, advice_templates['civil'])`: the dict
lookup over the six string keys, defaulting to the civil template. -/
def advice_templates_get (category : String) : AdviceTemplate :=
  if category = "family" then familyTemplate
  else if category = "criminal" then criminalTemplate
  else if category = "civil" then civilTemplate
  else if category = "property" then propertyTemplate
  else if category = "employment" then employmentTemplate
  else if category = "consumer" then consumerTemplate
  else civilTemplate

/-- The customization step appended when amounts were extracted (the
f-string joining the amount list). -/
def monetaryStep (amounts : List String) : String :=
  "The monetary value involved (" ++ String.intercalate ", " amounts ++
    ") may affect the jurisdiction and court fees"

/-- The customization step appended when dates were extracted. -/
def limitationStep : String := "Pay attention to limitation periods for legal action"

structure AdviceResult where
  recommended_steps : List String
  applicable_laws : List String
  urgency_level : String
deriving DecidableEq

/-- `generate_legal_advice(self, category, text, extracted_info)`: copies
the template's steps, appends the monetary step when `amounts` is truthy
(non-empty), then the limitation step when `dates` is truthy, and delegates
the urgency level to `assess_urgency`. -/
def generate_legal_advice (category text : String)
    (extracted_info : ExtractedInfo) : AdviceResult :=
  let template := advice_templates_get category
  let steps1 := template.steps
  let steps2 := if extracted_info.amounts.isEmpty then steps1
    else steps1 ++ [monetaryStep extracted_info.amounts]
  let steps3 := if extracted_info.dates.isEmpty then steps2
    else steps2 ++ [limitationStep]
  { recommended_steps := steps3,
    applicable_laws := template.laws,
    urgency_level := assess_urgency text category }

/-! ### Advice-engine theorems -/

/-- C3: the recommended steps are the base template's steps followed by the
monetary step exactly when `amounts` is non-empty and then the limitation
step exactly when `dates` is non-empty; hence the length is the base length
plus one per non-empty list, the base steps are a prefix, and the monetary
step precedes the limitation step. -/
theorem generate_legal_advice_customizes_base_template :
    ∀ category text info,
      (generate_legal_advice category text info).recommended_steps =
        (advice_templates_get category).steps
          ++ (if info.amounts.isEmpty then [] else [monetaryStep info.amounts])
          ++ (if info.dates.isEmpty then [] else [limitationStep]) ∧
      (generate_legal_advice category text info).recommended_steps.length =
        (advice_templates_get category).steps.length
          + (if info.amounts.isEmpty then 0 else 1)
          + (if info.dates.isEmpty then 0 else 1) ∧
      (generate_legal_advice category text info).recommended_steps.take
          (advice_templates_get category).steps.length =
        (advice_templates_get category).steps := by
  intro category text info
  simp only [generate_legal_advice]
  by_cases ha : info.amounts.isEmpty <;> by_cases hd : info.dates.isEmpty <;>
    simp [ha, hd, List.append_assoc, List.take_left, List.take_length]

/-- C4: any category outside the six template keys — "general" included —
is served the civil template: civil laws, and the civil steps as the base
of the recommended steps. -/
theorem generate_legal_advice_unknown_category_civil_fallback :
    ∀ category, category ∉ ["family", "criminal", "civil", "property",
        "employment", "consumer"] →
      advice_templates_get category = civilTemplate ∧
      ∀ text info,
        (generate_legal_advice category text info).applicable_laws =
          civilTemplate.laws ∧
        (generate_legal_advice category text info).recommended_steps.take
            civilTemplate.steps.length = civilTemplate.steps := by
  intro category h
  simp only [List.mem_cons, List.not_mem_nil, or_false, not_or] at h
  obtain ⟨h1, h2, h3, h4, h5, h6⟩ := h
  have hget : advice_templates_get category = civilTemplate := by
    rw [advice_templates_get, if_neg h1, if_neg h2, if_neg h3, if_neg h4,
      if_neg h5, if_neg h6]
  refine ⟨hget, fun text info => ⟨?_, ?_⟩⟩
  · simp [generate_legal_advice, hget]
  · simp only [generate_legal_advice, hget]
    by_cases ha : info.amounts.isEmpty <;> by_cases hd : info.dates.isEmpty <;>
      simp [ha, hd, List.append_assoc, List.take_left, List.take_length]

/-- Witness for C4 at the concrete category "general". -/
theorem generate_legal_advice_unknown_category_civil_fallback_witness :
    advice_templates_get "general" = civilTemplate ∧
    (generate_legal_advice "general" "" ⟨[], [], [], [], []⟩).applicable_laws =
      civilTemplate.laws := by
  have h := generate_legal_advice_unknown_category_civil_fallback "general" (by decide)
  exact ⟨h.1, (h.2 "" ⟨[], [], [], [], []⟩).1⟩

/-- C7: a raised or unparseable classifier call yields exactly
`{category: "general", confidence: 0.5, subcategories: []}`, and the advice
generated for the resulting "general" category coincides with the civil
template's advice (steps, laws, and urgency all equal the civil ones). -/
theorem classifier_failure_general_default_and_civil_advice :
    categorize_legal_issue none = ⟨"general", 1/2, []⟩ ∧
    categorize_legal_issue (some ⟨[], []⟩) = ⟨"general", 1/2, []⟩ ∧
    advice_templates_get "general" = civilTemplate ∧
    ∀ text info, generate_legal_advice "general" text info =
      generate_legal_advice "civil" text info := by
  refine ⟨rfl, rfl, rfl, fun text info => ?_⟩
  have hu : assess_urgency text "general" = assess_urgency text "civil" := by
    rw [assess_urgency_eq, assess_urgency_eq,
      if_neg (by decide : ¬("general" : String) = "criminal"),
      if_neg (by decide : ¬("civil" : String) = "criminal")]
  have hg : advice_templates_get "general" = civilTemplate := rfl
  have hcv : advice_templates_get "civil" = civilTemplate := rfl
  simp only [generate_legal_advice]
  rw [hg, hcv, hu]

/-! ### Score-range theorems -/

/-- C2 counterexample: a classifier response with top score 2 and a
sentiment response with score 2 flow through unclamped, so the produced
confidence and sentiment score exceed 1. -/
theorem scores_not_clamped_counterexample :
    1 < (categorize_legal_issue (some ⟨["family"], [2]⟩)).confidence ∧
    1 < (analyze_sentiment (some ⟨"NEGATIVE", 2⟩)).score := by
  constructor
  · show (1 : ℚ) < 2
    norm_num
  · show (1 : ℚ) < 2
    norm_num

/-- C2 (amended): the failure defaults (0.5) lie in `[0,1]`, and the
produced confidence and sentiment score lie in `[0,1]` whenever every score
carried by the external response does — the code passes external scores
through verbatim, without clamping. -/
theorem scores_in_range_iff_service_in_range :
    ∀ (c : Option ClassifierResponse) (s : Option SentimentResult),
      (∀ q ∈ classifierScores c, 0 ≤ q ∧ q ≤ 1) →
      (∀ q ∈ sentimentScores s, 0 ≤ q ∧ q ≤ 1) →
      0 ≤ (categorize_legal_issue c).confidence ∧
      (categorize_legal_issue c).confidence ≤ 1 ∧
      0 ≤ (analyze_sentiment s).score ∧
      (analyze_sentiment s).score ≤ 1 := by
  intro c s hc hs
  have hcat : 0 ≤ (categorize_legal_issue c).confidence ∧
      (categorize_legal_issue c).confidence ≤ 1 := by
    rcases c with - | ⟨labels, scores⟩
    · constructor <;> norm_num [categorize_legal_issue]
    · rcases labels with - | ⟨lab, labs⟩
      · constructor <;> norm_num [categorize_legal_issue]
      · rcases scores with - | ⟨sc, scs⟩
        · constructor <;> norm_num [categorize_legal_issue]
        · exact hc sc (by simp [classifierScores])
  have hsent : 0 ≤ (analyze_sentiment s).score ∧
      (analyze_sentiment s).score ≤ 1 := by
    rcases s with - | r
    · constructor <;> norm_num [analyze_sentiment]
    · exact hs r.score (by simp [sentimentScores])
  exact ⟨hcat.1, hcat.2, hsent.1, hsent.2⟩

/-- Witness for C2 at in-range concrete responses. -/
theorem scores_in_range_iff_service_in_range_witness :
    0 ≤ (categorize_legal_issue (some ⟨["family"], [1]⟩)).confidence ∧
    (categorize_legal_issue (some ⟨["family"], [1]⟩)).confidence ≤ 1 ∧
    0 ≤ (analyze_sentiment (some ⟨"POSITIVE", 1⟩)).score ∧
    (analyze_sentiment (some ⟨"POSITIVE", 1⟩)).score ≤ 1 := by
  refine scores_in_range_iff_service_in_range (some ⟨["family"], [1]⟩)
    (some ⟨"POSITIVE", 1⟩) ?_ ?_
  · intro q hq
    simp only [classifierScores, List.mem_singleton] at hq
    subst hq
    exact ⟨zero_le_one, le_refl 1⟩
  · intro q hq
    simp only [sentimentScores, List.mem_singleton] at hq
    subst hq
    exact ⟨zero_le_one, le_refl 1⟩

/-- C5 counterexample: a classifier response whose top label is "banana"
produces the category "banana" verbatim, outside the seven enumerated
values — there is no unrecognized-label fallback to "general". -/
theorem category_passthrough_counterexample :
    (categorize_legal_issue (some ⟨["banana"], [1]⟩)).category = "banana" ∧
    "banana" ∉ sevenCategories :=
  ⟨rfl, by decide⟩

/-- C5 (amended): the category field is the classifier's top label
verbatim, with "general" only on a raised call or unparseable response; it
lies within the seven enumerated values exactly when the top label, if one
was parsed, is itself recognized. -/
theorem category_is_top_label_verbatim :
    (∀ c, (categorize_legal_issue c).category =
        ((topPair c).map Prod.fst).getD "general") ∧
    (∀ c, (∀ p ∈ topPair c, p.1 ∈ sevenCategories) →
        (categorize_legal_issue c).category ∈ sevenCategories) := by
  have key : ∀ c, (categorize_legal_issue c).category =
      ((topPair c).map Prod.fst).getD "general" := by
    intro c
    rcases c with - | ⟨labels, scores⟩
    · rfl
    · rcases labels with - | ⟨lab, labs⟩ <;> rcases scores with - | ⟨sc, scs⟩ <;> rfl
  refine ⟨key, fun c h => ?_⟩
  rcases c with - | ⟨labels, scores⟩
  · exact (by decide : ("general" : String) ∈ sevenCategories)
  · rcases labels with - | ⟨lab, labs⟩
    · exact (by decide : ("general" : String) ∈ sevenCategories)
    · rcases scores with - | ⟨sc, scs⟩
      · exact (by decide : ("general" : String) ∈ sevenCategories)
      · exact h (lab, sc) rfl

/-- Witness for C5 at a recognized top label. -/
theorem category_is_top_label_verbatim_witness :
    (categorize_legal_issue (some ⟨["family"], [1]⟩)).category =
      ((topPair (some ⟨["family"], [1]⟩)).map Prod.fst).getD "general" ∧
    (categorize_legal_issue (some ⟨["family"], [1]⟩)).category ∈
      sevenCategories := by
  refine ⟨category_is_top_label_verbatim.1 _, category_is_top_label_verbatim.2
    (some ⟨["family"], [1]⟩) ?_⟩
  intro p hp
  simp only [topPair, Option.mem_def, Option.some.injEq] at hp
  subst hp
  decide

/-! ### `extract_key_info` (src/main.py lines 94-126)

The two `re.findall` calls are modelled by explicit scanners.  A `findall`
scans left to right: at each position it attempts the leftmost match (the
pattern's alternatives and quantifier lengths tried in the engine's
backtracking order), emits it, and resumes immediately after the match;
otherwise it advances one character.  The scanners take a fuel argument
instantiated with the text length; every loop iteration either consumes a
match (at least one character) or advances one character, so this fuel is
never exhausted. -/

/-- First `n` characters when they are exactly `n` digits (`\d{n}`). -/
def takeDigits (n : Nat) (cs : List Char) : Option (List Char × List Char) :=
  let g := cs.take n
  if g.length == n && g.all isDigitChar then some (g, cs.drop n) else none

/-- The word-boundary test after the final digit group (end of input or a
non-word character). -/
def boundaryAfter : List Char → Bool
  | [] => true
  | c :: _ => !isWordChar c

/-- One backtracking candidate of the date pattern (`\b`, `\d{1,2}`, a
dash-or-slash separator, `\d{1,2}`, a separator, `\d{2,4}`, `\b`) at the
current position: exactly `n1` digits, a separator, `n2` digits, a
separator, `n3` digits, then a word boundary.  Returns the matched
characters and the remaining input. -/
def matchDateCand (n1 n2 n3 : Nat) (cs : List Char) :
    Option (List Char × List Char) :=
  match takeDigits n1 cs with
  | none => none
  | some (g1, r1) =>
    match r1 with
    | [] => none
    | s1 :: r2 =>
      if isSepChar s1 then
        match takeDigits n2 r2 with
        | none => none
        | some (g2, r3) =>
          match r3 with
          | [] => none
          | s2 :: r4 =>
            if isSepChar s2 then
              match takeDigits n3 r4 with
              | none => none
              | some (g3, r5) =>
                if boundaryAfter r5 then
                  some (g1 ++ s1 :: (g2 ++ s2 :: g3), r5)
                else none
            else none
      else none

/-- The greedy backtracking order of the quantifiers `\d{1,2}`, `\d{1,2}`,
`\d{2,4}`: longer alternatives first, the last group varying fastest. -/
def dateCands : List (Nat × Nat × Nat) :=
  [(2, 2, 4), (2, 2, 3), (2, 2, 2), (2, 1, 4), (2, 1, 3), (2, 1, 2),
   (1, 2, 4), (1, 2, 3), (1, 2, 2), (1, 1, 4), (1, 1, 3), (1, 1, 2)]

/-- The date match attempted at one position (first candidate that fits). -/
def matchDateAt (cs : List Char) : Option (List Char × List Char) :=
  dateCands.findSome? (fun t => matchDateCand t.1 t.2.1 t.2.2 cs)

/-- The `findall` scan of the date pattern.  `prevWord` tracks whether the
previous character is a word character: the leading `\b` followed by `\d`
can only succeed at a position whose previous character is not a word
character (at such positions either the boundary fails or the first
character is not a digit, so skipping is exact). -/
def scanDates : Nat → List Char → Bool → List (List Char)
  | 0, _, _ => []
  | _ + 1, [], _ => []
  | fuel + 1, c :: cs, prevWord =>
    if prevWord then scanDates fuel cs (isWordChar c)
    else
      match matchDateAt (c :: cs) with
      | some (m, r) => m :: scanDates fuel r true
      | none => scanDates fuel cs (isWordChar c)

/-- The date `re.findall` of `extract_key_info` (`date_pattern`). -/
def findDates (text : String) : List String :=
  (scanDates text.data.length text.data false).map (fun l => String.mk l)

/-- Maximal run of digits and the rest (`\d+`, greedy). -/
def takeDigitRun (cs : List Char) : List Char × List Char :=
  (cs.takeWhile isDigitChar, cs.dropWhile isDigitChar)

/-- Maximal run of whitespace and the rest (`\s*`, greedy). -/
def takeSpaceRun (cs : List Char) : List Char × List Char :=
  (cs.takeWhile isSpaceChar, cs.dropWhile isSpaceChar)

/-- `(?:,\d+)*`, greedy: repeatedly a comma followed by at least one digit.
Fuel bounds the repetitions (each consumes at least two characters). -/
def takeCommaGroups : Nat → List Char → List Char × List Char
  | 0, cs => ([], cs)
  | fuel + 1, cs =>
    match cs with
    | ',' :: tl =>
      let (d, r) := takeDigitRun tl
      if d.isEmpty then ([], cs)
      else
        let (g, r2) := takeCommaGroups fuel r
        (',' :: (d ++ g), r2)
    | _ => ([], cs)

/-- One currency alternative of the amount pattern, `sym\s*\d+(?:,\d+)*`
(`sym` is `₹` or `$`).  The trailing quantifiers are greedy with nothing
after them, so maximal munch is exact; shortening `\s*` cannot help since
`\d` never matches a space. -/
def matchCurrencyAmount (sym : Char) (cs : List Char) :
    Option (List Char × List Char) :=
  match cs with
  | [] => none
  | c :: tl =>
    if c = sym then
      let (sp, r1) := takeSpaceRun tl
      let (d, r2) := takeDigitRun r1
      if d.isEmpty then none
      else
        let (g, r3) := takeCommaGroups r2.length r2
        some (c :: (sp ++ d ++ g), r3)
    else none

/-- The word alternatives of the third amount branch. -/
def amount_words : List String := ["rupees", "dollars", "lakh", "crore"]

/-- Case-insensitive match of the word `w` at the front of `cs`
(`re.IGNORECASE`; the words are ASCII lower-case). -/
def matchWordCI (w : List Char) (cs : List Char) : Bool :=
  lowerChars (cs.take w.length) == w

/-- The third amount alternative, `\d+\s*(?:rupees|dollars|lakh|crore)`
with `re.IGNORECASE`.  `\d+` and `\s*` are greedy; shortening them cannot
help since every word alternative starts with a letter. -/
def matchWordAmount (cs : List Char) : Option (List Char × List Char) :=
  let (d, r1) := takeDigitRun cs
  if d.isEmpty then none
  else
    let (sp, r2) := takeSpaceRun r1
    match amount_words.find? (fun w => matchWordCI w.data r2) with
    | some w => some (d ++ sp ++ r2.take w.data.length, r2.drop w.data.length)
    | none => none

/-- The amount match attempted at one position: the three alternatives of
`₹\s*\d+(?:,\d+)*|\$\s*\d+(?:,\d+)*|\d+\s*(?:rupees|dollars|lakh|crore)`
in order. -/
def matchAmountAt (cs : List Char) : Option (List Char × List Char) :=
  match matchCurrencyAmount '₹' cs with
  | some m => some m
  | none =>
    match matchCurrencyAmount '$' cs with
    | some m => some m
    | none => matchWordAmount cs

/-- The `findall` scan of the amount pattern (no word boundaries). -/
def scanAmounts : Nat → List Char → List (List Char)
  | 0, _ => []
  | _ + 1, [] => []
  | fuel + 1, c :: cs =>
    match matchAmountAt (c :: cs) with
    | some (m, r) => m :: scanAmounts fuel r
    | none => scanAmounts fuel cs

/-- `re.findall(amount_pattern, text, re.IGNORECASE)`. -/
def findAmounts (text : String) : List String :=
  (scanAmounts text.data.length text.data).map (fun l => String.mk l)

/-- The per-language keyword lists of `extract_key_info`, in dict order. -/
def english_keywords : List String :=
  ["contract", "agreement", "dispute", "court", "lawyer", "case", "legal", "law"]

def hindi_keywords : List String :=
  ["कानूनी", "न्यायालय", "वकील", "मामला", "विवाद", "समझौता"]

def marathi_keywords : List String :=
  ["कायदेशीर", "न्यायालय", "वकील", "प्रकरण", "वाद", "करार"]

/-- The keyword lists concatenated in iteration order (english, hindi,
marathi — Python dicts iterate in insertion order). -/
def all_keywords : List String :=
  english_keywords ++ hindi_keywords ++ marathi_keywords

/-- The keyword loop: each list word is appended once when its lower-cased
form occurs in the lower-cased text. -/
def extractLegalKeywords (text : String) : List String :=
  all_keywords.filter
    (fun w => containsSub (lowerChars w.data) (lowerChars text.data))

/-- `extract_key_info(self, text)`: dates and amounts by the two regex
scans, keywords by the containment loop; parties and locations are never
filled. -/
def extract_key_info (text : String) : ExtractedInfo :=
  { parties_involved := [],
    legal_keywords := extractLegalKeywords text,
    dates := findDates text,
    amounts := findAmounts text,
    locations := [] }

/-- Spec-side shape of a date token (the amended reading of the pattern):
1 to 2 digits, a separator, 1 to 2 digits, a separator, then 2 **to** 4
digits.  `dateCands` enumerates exactly the possible group lengths. -/
def dateShape (s : List Char) : Bool :=
  dateCands.any (fun t =>
    s.length == t.1 + t.2.1 + t.2.2 + 2 &&
    ((s.take t.1).all isDigitChar &&
     (match s.drop t.1 with
      | a :: rest1 =>
        isSepChar a &&
        ((rest1.take t.2.1).all isDigitChar &&
         (match rest1.drop t.2.1 with
          | b :: rest2 => isSepChar b && rest2.all isDigitChar
          | [] => false))
      | [] => false)))

lemma takeDigits_eq {n : Nat} {cs g r : List Char}
    (h : takeDigits n cs = some (g, r)) :
    g.length = n ∧ g.all isDigitChar = true ∧ cs = g ++ r := by
  unfold takeDigits at h
  by_cases hc : ((cs.take n).length == n && (cs.take n).all isDigitChar) = true
  · rw [if_pos hc] at h
    obtain ⟨hl, hd⟩ : ((cs.take n).length == n) = true ∧
        (cs.take n).all isDigitChar = true := by simpa using hc
    simp only [Option.some.injEq, Prod.mk.injEq] at h
    obtain ⟨hg, hr⟩ := h
    subst hg
    subst hr
    exact ⟨beq_iff_eq.mp hl, hd, (List.take_append_drop n cs).symm⟩
  · rw [if_neg hc] at h
    exact absurd h (by simp)

lemma matchDateCand_sound {n1 n2 n3 : Nat} {cs m r : List Char}
    (h : matchDateCand n1 n2 n3 cs = some (m, r)) :
    ∃ g1 s1 g2 s2 g3,
      m = g1 ++ s1 :: (g2 ++ s2 :: g3) ∧
      g1.length = n1 ∧ g2.length = n2 ∧ g3.length = n3 ∧
      g1.all isDigitChar = true ∧ g2.all isDigitChar = true ∧
      g3.all isDigitChar = true ∧
      isSepChar s1 = true ∧ isSepChar s2 = true := by
  unfold matchDateCand at h
  cases e1 : takeDigits n1 cs with
  | none => rw [e1] at h; exact absurd h (by simp)
  | some p1 =>
    obtain ⟨g1, r1⟩ := p1
    rw [e1] at h
    obtain ⟨hg1, hd1, -⟩ := takeDigits_eq e1
    cases r1 with
    | nil => exact absurd h (by simp)
    | cons s1 r2 =>
      simp only [] at h
      by_cases hs1 : isSepChar s1 = true
      · rw [if_pos hs1] at h
        cases e2 : takeDigits n2 r2 with
        | none => rw [e2] at h; exact absurd h (by simp)
        | some p2 =>
          obtain ⟨g2, r3⟩ := p2
          rw [e2] at h
          obtain ⟨hg2, hd2, -⟩ := takeDigits_eq e2
          cases r3 with
          | nil => exact absurd h (by simp)
          | cons s2 r4 =>
            simp only [] at h
            by_cases hs2 : isSepChar s2 = true
            · rw [if_pos hs2] at h
              cases e3 : takeDigits n3 r4 with
              | none => rw [e3] at h; exact absurd h (by simp)
              | some p3 =>
                obtain ⟨g3, r5⟩ := p3
                rw [e3] at h
                simp only [] at h
                obtain ⟨hg3, hd3, -⟩ := takeDigits_eq e3
                by_cases hb : boundaryAfter r5 = true
                · rw [if_pos hb] at h
                  simp only [Option.some.injEq, Prod.mk.injEq] at h
                  exact ⟨g1, s1, g2, s2, g3, h.1.symm, hg1, hg2, hg3,
                    hd1, hd2, hd3, hs1, hs2⟩
                · rw [if_neg hb] at h
                  exact absurd h (by simp)
            · rw [if_neg hs2] at h
              exact absurd h (by simp)
      · rw [if_neg hs1] at h
        exact absurd h (by simp)

lemma dateShape_of_parts {g1 g2 g3 : List Char} {s1 s2 : Char} {n1 n2 n3 : Nat}
    (ht : (n1, n2, n3) ∈ dateCands)
    (h1 : g1.length = n1) (h2 : g2.length = n2) (h3 : g3.length = n3)
    (d1 : g1.all isDigitChar = true) (d2 : g2.all isDigitChar = true)
    (d3 : g3.all isDigitChar = true)
    (hs1 : isSepChar s1 = true) (hs2 : isSepChar s2 = true) :
    dateShape (g1 ++ s1 :: (g2 ++ s2 :: g3)) = true := by
  have e1 : (g1 ++ s1 :: (g2 ++ s2 :: g3)).take n1 = g1 := by
    rw [← h1]; exact List.take_left _ _
  have e2 : (g1 ++ s1 :: (g2 ++ s2 :: g3)).drop n1 = s1 :: (g2 ++ s2 :: g3) := by
    rw [← h1]; exact List.drop_left _ _
  have e3 : (g2 ++ s2 :: g3).take n2 = g2 := by
    rw [← h2]; exact List.take_left _ _
  have e4 : (g2 ++ s2 :: g3).drop n2 = s2 :: g3 := by
    rw [← h2]; exact List.drop_left _ _
  unfold dateShape
  rw [List.any_eq_true]
  refine ⟨(n1, n2, n3), ht, ?_⟩
  simp only [e1, e2, e3, e4, d1, d2, d3, hs1, hs2, Bool.and_true, Bool.true_and,
    List.length_append, List.length_cons, h1, h2, h3]
  simp only [beq_iff_eq]
  omega

lemma matchDateAt_sound {cs m r : List Char}
    (h : matchDateAt cs = some (m, r)) : dateShape m = true := by
  obtain ⟨t, ht, he⟩ := List.exists_of_findSome?_eq_some h
  obtain ⟨g1, s1, g2, s2, g3, rfl, hg1, hg2, hg3, hd1, hd2, hd3, hs1, hs2⟩ :=
    matchDateCand_sound he
  exact dateShape_of_parts ht hg1 hg2 hg3 hd1 hd2 hd3 hs1 hs2

lemma scanDates_sound :
    ∀ (fuel : Nat) (cs : List Char) (b : Bool) (m : List Char),
      m ∈ scanDates fuel cs b → dateShape m = true := by
  intro fuel
  induction fuel with
  | zero => intro cs b m hm; simp [scanDates] at hm
  | succ n ih =>
    intro cs b m hm
    cases cs with
    | nil => simp [scanDates] at hm
    | cons c tl =>
      rw [scanDates] at hm
      by_cases hb : b = true
      · rw [if_pos hb] at hm
        exact ih tl (isWordChar c) m hm
      · rw [if_neg hb] at hm
        cases e : matchDateAt (c :: tl) with
        | none => rw [e] at hm; exact ih tl (isWordChar c) m hm
        | some p =>
          obtain ⟨mtch, rest⟩ := p
          rw [e] at hm
          rcases List.mem_cons.mp hm with rfl | hm'
          · exact matchDateAt_sound e
          · exact ih rest true m hm'

example : (extract_key_info "12/05/202").dates = ["12/05/202"] := by decide

example : (extract_key_info "meeting on 12/05/2023, rent ₹15,000 and 20 rupees").dates
    = ["12/05/2023"] := by decide

example : (extract_key_info "meeting on 12/05/2023, rent ₹15,000 and 20 rupees").amounts
    = ["₹15,000", "20 rupees"] := by decide

example : (extract_key_info "court case about a contract").legal_keywords
    = ["contract", "court", "case"] := by decide

example : (extract_key_info "न्यायालय").legal_keywords = ["न्यायालय", "न्यायालय"] := by decide

/-- C6 (amended): every substring extracted into the dates list has the
form 1–2 digits, a separator, 1–2 digits, a separator, then 2 **to** 4
digits — the final quantifier of the pattern is the range `\d{2,4}`, not
"2 or 4 digits".  In particular the token "12/05/202", whose final group
has exactly 3 digits, IS extracted, as are 2- and 4-digit final groups,
while 1- and 5-digit final groups are not. -/
theorem extracted_dates_match_date_pattern :
    (∀ text s, s ∈ (extract_key_info text).dates → dateShape s.data = true) ∧
    (extract_key_info "12/05/202").dates = ["12/05/202"] ∧
    (extract_key_info "12/05/2023").dates = ["12/05/2023"] ∧
    (extract_key_info "12/05/23").dates = ["12/05/23"] ∧
    (extract_key_info "12/05/2").dates = [] ∧
    (extract_key_info "12/05/20234").dates = [] := by
  refine ⟨?_, by decide, by decide, by decide, by decide, by decide⟩
  intro text s hs
  simp only [extract_key_info, findDates] at hs
  obtain ⟨l, hl, rfl⟩ := List.mem_map.mp hs
  exact scanDates_sound _ _ _ _ hl

/-- Witness for C6: a concrete extracted date satisfying the shape. -/
theorem extracted_dates_match_date_pattern_witness :
    "12/05/2023" ∈ (extract_key_info "12/05/2023").dates ∧
    dateShape ("12/05/2023".data) = true :=
  ⟨by decide,
   extracted_dates_match_date_pattern.1 "12/05/2023" "12/05/2023" (by decide)⟩

/-- C6 counterexample: the claim says a token whose final group has exactly
3 digits, such as "12/05/202", is not extracted; the code's pattern
`\d{2,4}` accepts it, and it is extracted. -/
theorem date_three_digit_final_group_counterexample :
    (extract_key_info "12/05/202").dates = ["12/05/202"] ∧
    "12/05/202" ∈ (extract_key_info "12/05/202").dates := by
  exact ⟨by decide, by decide⟩

/-- C10: the extracted keyword list is a sublist of the 20-entry keyword
table (8 English + 6 Hindi + 6 Marathi, in that order), so each table
entry is appended at most once per analysis and the list never exceeds 20
entries; an entry can reach multiplicity 2 only by being listed in two
language lists, which only "न्यायालय" and "वकील" are, and one textual
occurrence of such a word yields exactly two entries. -/
theorem legal_keywords_sublist_of_table :
    (∀ text, List.Sublist ((extract_key_info text).legal_keywords) all_keywords) ∧
    all_keywords.length = 20 ∧
    (∀ text, ((extract_key_info text).legal_keywords).length ≤ 20) ∧
    (∀ text w, 2 ≤ ((extract_key_info text).legal_keywords).count w →
      w = "न्यायालय" ∨ w = "वकील") ∧
    (extract_key_info "न्यायालय").legal_keywords = ["न्यायालय", "न्यायालय"] := by
  have hsub : ∀ text,
      List.Sublist ((extract_key_info text).legal_keywords) all_keywords :=
    fun text => List.filter_sublist _
  refine ⟨hsub, by decide, ?_, ?_, by decide⟩
  · intro text
    have h20 : all_keywords.length = 20 := by decide
    exact h20 ▸ (hsub text).length_le
  · intro text w h2
    have hc : 2 ≤ all_keywords.count w :=
      le_trans h2 ((hsub text).count_le w)
    have hmem : w ∈ all_keywords := by
      by_contra hnm
      rw [List.count_eq_zero_of_not_mem hnm] at hc
      omega
    have key : ∀ v ∈ all_keywords, 2 ≤ all_keywords.count v →
        v = "न्यायालय" ∨ v = "वकील" := by decide
    exact key w hmem hc

/-- Witness for C10: the shared Hindi/Marathi word reaches multiplicity 2. -/
theorem legal_keywords_sublist_of_table_witness :
    2 ≤ ((extract_key_info "न्यायालय").legal_keywords).count "न्यायालय" ∧
    ("न्यायालय" = "न्यायालय" ∨ ("न्यायालय" : String) = "वकील") :=
  ⟨by decide,
   legal_keywords_sublist_of_table.2.2.2.1 "न्यायालय" "न्यायालय" (by decide)⟩

end LegalAnalyzer
